import Mathlib

/-!
Verification of the carbon-cli core against its specification.

The development shallowly embeds the three source files of the repository:

* `src/state.rs`   — the single-slot command mailbox (`AppState`);
* `src/sourcemap.rs` — the sourcemap builder (`generate_sourcemap`,
  `walk_directory`, `parse_script_name`) and the serialized node shape;
* `src/main.rs`    — the file-ingest handler (`sync_update`).

Filesystem state is modelled as an inductive tree (`FsNode`): a directory
carries the list of its entries in directory-read order together with a flag
saying whether `read_dir` succeeds on it; a path is a list of segments, and
`PathBuf::join` is list append.  Fallible filesystem writes in the ingest
handler are modelled as a trace of attempted actions.
-/

/-! ## Command mailbox (src/state.rs) -/

/-- The `SyncCommand` enumeration of `src/state.rs` (three variants). -/
inductive SyncCommand where
  | Import
  | Export
  | Sourcemap
deriving DecidableEq, Repr

/-- `AppState::set_command`: unconditionally overwrites the pending slot. -/
def set_command (_slot : Option SyncCommand) (command : SyncCommand) :
    Option SyncCommand :=
  some command

/-- `AppState::pop_command`: `lock.take()` — returns the previous value and
leaves the slot empty.  The pair is (returned value, new slot state). -/
def pop_command (slot : Option SyncCommand) :
    Option SyncCommand × Option SyncCommand :=
  (slot, none)

/-- A call made against the mailbox: either the `/command` endpoint
(`set_command`) or the `/poll` endpoint (`pop_command`). -/
inductive MailboxOp where
  | submit (c : SyncCommand)
  | consume
deriving DecidableEq, Repr

/-- Runs a sequence of mailbox operations from a starting slot state,
returning the final slot state together with the list of values returned by
the `consume` operations, in order. -/
def run_mailbox :
    Option SyncCommand → List MailboxOp →
      Option SyncCommand × List (Option SyncCommand)
  | slot, [] => (slot, [])
  | slot, MailboxOp.submit c :: rest => run_mailbox (set_command slot c) rest
  | slot, MailboxOp.consume :: rest =>
      let r := pop_command slot
      let t := run_mailbox r.2 rest
      (t.1, r.1 :: t.2)

/-! ## Sourcemap builder (src/sourcemap.rs) -/

/-- Filesystem state: a file, or a directory with its entries (name paired
with the entry's node, in directory-read order).  `readable` records whether
`std::fs::read_dir` succeeds on the directory; `Path::exists` / `is_dir` /
`is_file` checks are answered from the tree itself. -/
inductive FsNode where
  | file
  | dir (readable : Bool) (entries : List (String × FsNode))
deriving Repr

/-- Looks an entry name up in a directory listing (models `Path::exists`
checks for a child of a directory whose listing is `entries`). -/
def entry_lookup : List (String × FsNode) → String → Option FsNode
  | [], _ => none
  | (n, e) :: rest, target => if n = target then some e else entry_lookup rest target

/-- `path.exists()` for the child `target` of a directory listing. -/
def entry_exists (entries : List (String × FsNode)) (target : String) : Bool :=
  (entry_lookup entries target).isSome

/-- The `SourcemapNode` struct of `src/sourcemap.rs`.  `file_paths` holds
filesystem paths as segment lists. -/
inductive SourcemapNode where
  | mk (name class_name : String) (file_paths : Option (List (List String)))
      (children : List SourcemapNode)
deriving Repr

/-- Field `name` of a `SourcemapNode`. -/
def SourcemapNode.name : SourcemapNode → String
  | SourcemapNode.mk n _ _ _ => n

/-- Field `class_name` of a `SourcemapNode`. -/
def SourcemapNode.class_name : SourcemapNode → String
  | SourcemapNode.mk _ c _ _ => c

/-- Field `file_paths` of a `SourcemapNode`. -/
def SourcemapNode.file_paths : SourcemapNode → Option (List (List String))
  | SourcemapNode.mk _ _ f _ => f

/-- Field `children` of a `SourcemapNode`. -/
def SourcemapNode.children : SourcemapNode → List SourcemapNode
  | SourcemapNode.mk _ _ _ cs => cs

/-- Rust `str::starts_with` on strings, at the character level. -/
def starts_with (s p : String) : Bool :=
  p.data.isPrefixOf s.data

/-- Rust `str::ends_with` on strings, at the character level. -/
def ends_with (s p : String) : Bool :=
  p.data.isSuffixOf s.data

/-- Rust `str::strip_suffix`: `some` of the stem when the suffix matches. -/
def strip_suffix (s suffix : String) : Option String :=
  if ends_with s suffix then
    some (String.mk (s.data.take (s.data.length - suffix.data.length)))
  else none

/-- `parse_script_name` of `src/sourcemap.rs` (lines 127–137): derives
`(name, class)` for a child script file from its suffix. -/
def parse_script_name (filename : String) : String × String :=
  match strip_suffix filename ".server.luau" with
  | some stem => (stem, "Script")
  | none =>
    match strip_suffix filename ".client.luau" with
    | some stem => (stem, "LocalScript")
    | none =>
      match strip_suffix filename ".luau" with
      | some stem => (stem, "ModuleScript")
      | none => (filename, "Folder")

/-- The init-script block of `walk_directory` (lines 73–88): from the
directory listing, the directory's path and the incoming `class_name`,
produce the node's `file_paths` and final `class_name`.  Priority is
`init.server.luau`, then `init.client.luau`, then `init.luau`; the class is
upgraded only when the incoming class is the generic `"Folder"`. -/
def init_resolution (entries : List (String × FsNode)) (dirPath : List String)
    (class_name : String) : Option (List (List String)) × String :=
  if entry_exists entries "init.server.luau" then
    (some [dirPath ++ ["init.server.luau"]],
      if class_name = "Folder" then "Script" else class_name)
  else if entry_exists entries "init.client.luau" then
    (some [dirPath ++ ["init.client.luau"]],
      if class_name = "Folder" then "LocalScript" else class_name)
  else if entry_exists entries "init.luau" then
    (some [dirPath ++ ["init.luau"]],
      if class_name = "Folder" then "ModuleScript" else class_name)
  else (none, class_name)

mutual

/-- `walk_directory` of `src/sourcemap.rs` (lines 66–125): `none` when the
path is not a directory; otherwise a node with the init-resolved class and
file paths, and children built from the listing (empty when `read_dir`
fails). -/
def walk_directory : FsNode → List String → String → String → Option SourcemapNode
  | FsNode.file, _, _, _ => none
  | FsNode.dir readable entries, dirPath, name, class_name =>
      some (SourcemapNode.mk name
        (init_resolution entries dirPath class_name).2
        (init_resolution entries dirPath class_name).1
        (if readable then walk_entries entries dirPath name else []))

/-- The entry loop of `walk_directory` (lines 90–122): child directories
recurse (with the `StarterPlayer` contextual override), child files starting
with `init.` are skipped, files ending in `.luau` become leaf nodes, other
files are ignored. -/
def walk_entries : List (String × FsNode) → List String → String → List SourcemapNode
  | [], _, _ => []
  | (file_name, child) :: rest, dirPath, name =>
      (match child with
        | FsNode.dir r es =>
            match walk_directory (FsNode.dir r es) (dirPath ++ [file_name]) file_name
                (if name = "StarterPlayer" ∧ file_name = "StarterPlayerScripts" then
                  "StarterPlayerScripts"
                else if name = "StarterPlayer" ∧ file_name = "StarterCharacterScripts" then
                  "StarterCharacterScripts"
                else
                  "Folder") with
            | some child_node => [child_node]
            | none => []
        | FsNode.file =>
            if starts_with file_name "init." then []
            else if ends_with file_name ".luau" then
              [SourcemapNode.mk (parse_script_name file_name).1
                (parse_script_name file_name).2 (some [dirPath ++ [file_name]]) []]
            else []) ++ walk_entries rest dirPath name

end

/-- The body of the `walk_directory` entry loop for one entry, written as a
standalone function (the list it returns is the sequence of nodes the entry
pushes: one or none).  `walk_entries` is proved below to be the
concatenation of `entry_child` over the listing. -/
def entry_child (dirPath : List String) (name : String) :
    String × FsNode → List SourcemapNode
  | (file_name, FsNode.dir r es) =>
      (match walk_directory (FsNode.dir r es) (dirPath ++ [file_name]) file_name
          (if name = "StarterPlayer" ∧ file_name = "StarterPlayerScripts" then
            "StarterPlayerScripts"
          else if name = "StarterPlayer" ∧ file_name = "StarterCharacterScripts" then
            "StarterCharacterScripts"
          else
            "Folder") with
      | some child_node => [child_node]
      | none => [])
  | (file_name, FsNode.file) =>
      if starts_with file_name "init." then []
      else if ends_with file_name ".luau" then
        [SourcemapNode.mk (parse_script_name file_name).1
          (parse_script_name file_name).2 (some [dirPath ++ [file_name]]) []]
      else []

/-- Whether a directory listing holds any of the three init-script names. -/
def has_init_script (entries : List (String × FsNode)) : Bool :=
  entry_exists entries "init.server.luau"
    || entry_exists entries "init.client.luau"
    || entry_exists entries "init.luau"

/-- The top-level service-name table of `generate_sourcemap`
(lines 39–52). -/
def top_level_class (dir_name : String) : String :=
  match dir_name with
  | "ServerScriptService" => "ServerScriptService"
  | "ReplicatedStorage" => "ReplicatedStorage"
  | "StarterPlayer" => "StarterPlayer"
  | "StarterGui" => "StarterGui"
  | "ReplicatedFirst" => "ReplicatedFirst"
  | "SoundService" => "SoundService"
  | "Chat" => "Chat"
  | "Lighting" => "Lighting"
  | "MaterialService" => "MaterialService"
  | "HttpService" => "HttpService"
  | "Workspace" => "Workspace"
  | _ => "Folder"

/-- The entry loop of `generate_sourcemap` (lines 33–58): only immediate
subdirectories of the `game` directory produce children of the root; files
at the top level are ignored. -/
def top_level_children : List (String × FsNode) → List String → List SourcemapNode
  | [], _ => []
  | (dir_name, entry) :: rest, game_path =>
      (match entry with
        | FsNode.dir r es =>
            match walk_directory (FsNode.dir r es) (game_path ++ [dir_name])
                dir_name (top_level_class dir_name) with
            | some node => [node]
            | none => []
        | FsNode.file => []) ++ top_level_children rest game_path

/-- The body of the `generate_sourcemap` entry loop for one entry of the
`game` directory, as a standalone function. -/
def top_child (game_path : List String) : String × FsNode → List SourcemapNode
  | (dir_name, FsNode.dir r es) =>
      (match walk_directory (FsNode.dir r es) (game_path ++ [dir_name]) dir_name
          (top_level_class dir_name) with
      | some node => [node]
      | none => [])
  | (_, FsNode.file) => []

/-- `generate_sourcemap` of `src/sourcemap.rs` (lines 27–64), up to JSON
serialization: the root node named `Project` with class `DataModel`, whose
children come from walking the `game` subdirectory when it exists, is a
directory, and is readable. -/
def generate_sourcemap (root : FsNode) (root_path : List String) : SourcemapNode :=
  match root with
  | FsNode.file => SourcemapNode.mk "Project" "DataModel" none []
  | FsNode.dir _ entries =>
      match entry_lookup entries "game" with
      | some (FsNode.dir readable gentries) =>
          SourcemapNode.mk "Project" "DataModel" none
            (if readable then
              top_level_children gentries (root_path ++ ["game"])
            else [])
      | _ => SourcemapNode.mk "Project" "DataModel" none []

/-! ### JSON serialization of the sourcemap (the serde derive on
`SourcemapNode`, lines 4–13) -/

/-- A JSON value (only the forms the sourcemap serialization produces). -/
inductive Json where
  | str (s : String)
  | arr (elems : List Json)
  | obj (fields : List (String × Json))
deriving Repr

/-- `PathBuf` serialization: segments joined by the path separator. -/
def path_to_string (p : List String) : String :=
  String.intercalate "/" p

mutual

/-- The serde serialization of `SourcemapNode`:
`#[serde(rename_all = "camelCase")]` renames the fields to `name`,
`className`, `filePaths`, `children`; `file_paths` is skipped when `None`
and `children` is skipped when empty. -/
def node_to_json : SourcemapNode → Json
  | SourcemapNode.mk name class_name file_paths children =>
      Json.obj
        ([("name", Json.str name), ("className", Json.str class_name)]
          ++ (match file_paths with
              | none => []
              | some ps =>
                  [("filePaths",
                    Json.arr (ps.map (fun p => Json.str (path_to_string p))))])
          ++ (if children.isEmpty then []
              else [("children", Json.arr (children_to_json children))]))

/-- Serialization of a list of children, in order. -/
def children_to_json : List SourcemapNode → List Json
  | [] => []
  | c :: rest => node_to_json c :: children_to_json rest

end

/-- The keys of a JSON object, in serialization order. -/
def json_keys : Json → List String
  | Json.obj fields => fields.map Prod.fst
  | _ => []

/-- Every node of a sourcemap tree either has no `file_paths` or has exactly
one path in it, recursively. -/
inductive SingleSource : SourcemapNode → Prop where
  | mk : ∀ (name class_name : String) (file_paths : Option (List (List String)))
      (children : List SourcemapNode),
      (file_paths = none ∨ ∃ p, file_paths = some [p]) →
      (∀ c ∈ children, SingleSource c) →
      SingleSource (SourcemapNode.mk name class_name file_paths children)

/-! ## File ingest (`sync_update` of src/main.rs, lines 134–182) -/

/-- Two consecutive dots occur somewhere in the character list. -/
def dotdot_chars : List Char → Bool
  | '.' :: '.' :: _ => true
  | _ :: rest => dotdot_chars rest
  | [] => false

/-- Rust `str::contains("..")`: the two-dot pattern occurs in the string. -/
def contains_dotdot (s : String) : Bool :=
  dotdot_chars s.data

/-- Everything before the final `/`, or empty when there is no `/`. -/
def parent_chars (l : List Char) : List Char :=
  match l.reverse.dropWhile (fun c => c ≠ '/') with
  | [] => []
  | _ :: rest => rest.reverse

/-- Models `Path::parent` for the relative, separator-`/` path strings the
ingest endpoint receives: `none` for the empty or root path, otherwise the
path with its final component removed (the parent of a bare file name is the
empty path, as in Rust). -/
def parent_dir (p : String) : Option String :=
  if p = "" ∨ p = "/" then none
  else some (String.mk (parent_chars p.data))

/-- A filesystem action attempted by the ingest handler. -/
inductive FsAction where
  | create_dir_all (path : String)
  | write_file (path content : String)
deriving DecidableEq, Repr

/-- The body of the `sync_update` per-file loop (lines 143–163) as the trace
of attempted filesystem actions.  A path containing `..` is rejected before
any action; otherwise the parent directory is created when there is one, and
the file write is attempted only when that creation succeeded (`mkdir_ok`
says whether `create_dir_all` succeeds on a given directory). -/
def process_file_entry (mkdir_ok : String → Bool) (path_str content : String) :
    List FsAction :=
  if contains_dotdot path_str then []
  else
    match parent_dir path_str with
    | some parent =>
        if mkdir_ok parent then
          [FsAction.create_dir_all parent, FsAction.write_file path_str content]
        else
          [FsAction.create_dir_all parent]
    | none => [FsAction.write_file path_str content]

/-- The `sync_update` loop over the `files` array (lines 137–164): each
element contributes its `path` and `content` string fields when both are
present, and is skipped silently otherwise. -/
def sync_update_actions (mkdir_ok : String → Bool) :
    List (Option String × Option String) → List FsAction
  | [] => []
  | (some path_str, some content) :: rest =>
      process_file_entry mkdir_ok path_str content
        ++ sync_update_actions mkdir_ok rest
  | (some _, none) :: rest => sync_update_actions mkdir_ok rest
  | (none, _) :: rest => sync_update_actions mkdir_ok rest

/-! ## Helper lemmas -/

/-- `walk_entries` is the concatenation of `entry_child` over the listing. -/
theorem walk_entries_flat (entries : List (String × FsNode)) (dirPath : List String)
    (name : String) :
    walk_entries entries dirPath name = entries.flatMap (entry_child dirPath name) := by
  induction entries with
  | nil => rfl
  | cons e rest ih =>
      obtain ⟨fn, ch⟩ := e
      rw [List.flatMap_cons, ← ih]
      cases ch <;> rfl

/-- `top_level_children` is the concatenation of `top_child` over the
listing of the `game` directory. -/
theorem top_level_children_flat (entries : List (String × FsNode))
    (game_path : List String) :
    top_level_children entries game_path = entries.flatMap (top_child game_path) := by
  induction entries with
  | nil => rfl
  | cons e rest ih =>
      obtain ⟨fn, ch⟩ := e
      rw [List.flatMap_cons, ← ih]
      cases ch <;> rfl

/-- After running operations none of which submit `c1`, from a slot not
holding `c1`, no `consume` output is `c1`. -/
theorem run_mailbox_never_returns (c1 : SyncCommand) (ops : List MailboxOp) :
    ∀ slot : Option SyncCommand, MailboxOp.submit c1 ∉ ops → slot ≠ some c1 →
      some c1 ∉ (run_mailbox slot ops).2 := by
  induction ops with
  | nil =>
      intro slot _ _
      simp [run_mailbox]
  | cons op rest ih =>
      intro slot h hslot
      match op with
      | MailboxOp.submit c =>
          have hmem : MailboxOp.submit c1 ∉ rest := fun hm => h (List.mem_cons_of_mem _ hm)
          have hc : (some c : Option SyncCommand) ≠ some c1 := by
            intro he
            exact h (by simp [Option.some.injEq] at he; simp [he])
          exact ih (set_command slot c) hmem hc
      | MailboxOp.consume =>
          have hmem : MailboxOp.submit c1 ∉ rest := fun hm => h (List.mem_cons_of_mem _ hm)
          have htail := ih none hmem (by simp)
          simp only [run_mailbox, pop_command, List.mem_cons]
          rintro (hhd | htl)
          · exact hslot hhd.symm
          · exact htail htl

/-! ## Claims -/

/-- C1 (counterexample): on the concrete root directory with a readable
empty listing, the root node's classification is `"DataModel"`, not
`"Project"` as claimed. -/
theorem C1_counterexample :
    (generate_sourcemap (FsNode.dir true []) []).class_name = "DataModel"
    ∧ (generate_sourcemap (FsNode.dir true []) []).class_name ≠ "Project" := by
  exact ⟨rfl, by decide⟩

/-- C1 (amended): for every root directory, `generate_sourcemap` produces a
root node named `"Project"` whose classification is `"DataModel"`, with no
source files. -/
theorem C1_root_node (root : FsNode) (root_path : List String) :
    (generate_sourcemap root root_path).name = "Project"
    ∧ (generate_sourcemap root root_path).class_name = "DataModel"
    ∧ (generate_sourcemap root root_path).file_paths = none := by
  cases root with
  | file => exact ⟨rfl, rfl, rfl⟩
  | dir r entries =>
      cases h : entry_lookup entries "game" with
      | none =>
          simp [generate_sourcemap, h, SourcemapNode.name, SourcemapNode.class_name,
            SourcemapNode.file_paths]
      | some e =>
          cases e <;>
            simp [generate_sourcemap, h, SourcemapNode.name, SourcemapNode.class_name,
              SourcemapNode.file_paths]

/-- C2: for every command and every mailbox state, `pop_command` right after
`set_command` returns that command and clears the slot, a subsequent
`pop_command` returns empty, and `pop_command` on the empty slot returns
empty and leaves the slot empty. -/
theorem C2_consume_after_submit (c : SyncCommand) (slot : Option SyncCommand) :
    pop_command (set_command slot c) = (some c, none)
    ∧ pop_command (pop_command (set_command slot c)).2 = (none, none)
    ∧ pop_command none = (none, none) :=
  ⟨rfl, rfl, rfl⟩

/-- C3: submitting `c1` then `c2` and consuming yields `c2`; as long as `c1`
is not submitted again, no later consume ever returns `c1` (last-write-wins,
the overwritten command is not observable). -/
theorem C3_last_write_wins (c1 c2 : SyncCommand) (slot : Option SyncCommand)
    (rest : List MailboxOp) (h : MailboxOp.submit c1 ∉ rest) :
    (run_mailbox slot
        (MailboxOp.submit c1 :: MailboxOp.submit c2 :: MailboxOp.consume :: rest)).2
      = some c2 :: (run_mailbox none rest).2
    ∧ (c1 ≠ c2 →
        some c1 ∉ (run_mailbox slot
          (MailboxOp.submit c1 :: MailboxOp.submit c2 :: MailboxOp.consume :: rest)).2) := by
  constructor
  · simp [run_mailbox, set_command, pop_command]
  · intro hne
    simp only [run_mailbox, set_command, pop_command, List.mem_cons]
    rintro (hhd | htl)
    · exact hne (by simpa using hhd)
    · exact run_mailbox_never_returns c1 rest none h (by simp) htl

/-- C3 witness: a concrete run with `Import` overwritten by `Export` and a
trailing extra consume. -/
theorem C3_last_write_wins_witness :
    (run_mailbox (some SyncCommand.Sourcemap)
        (MailboxOp.submit SyncCommand.Import :: MailboxOp.submit SyncCommand.Export ::
          MailboxOp.consume :: [MailboxOp.consume])).2
      = some SyncCommand.Export :: (run_mailbox none [MailboxOp.consume]).2
    ∧ (SyncCommand.Import ≠ SyncCommand.Export →
        some SyncCommand.Import ∉ (run_mailbox (some SyncCommand.Sourcemap)
          (MailboxOp.submit SyncCommand.Import :: MailboxOp.submit SyncCommand.Export ::
            MailboxOp.consume :: [MailboxOp.consume])).2) :=
  C3_last_write_wins SyncCommand.Import SyncCommand.Export (some SyncCommand.Sourcemap)
    [MailboxOp.consume] (by decide)

/-- C9: the serialized JSON object of every node has exactly the
lower-camel-case keys `name` and `className`, plus `filePaths` exactly when
the node has source files, plus `children` exactly when the node has
children — never emitted empty or null. -/
theorem C9_serialized_shape (node : SourcemapNode) :
    json_keys (node_to_json node)
      = ["name", "className"]
        ++ (if node.file_paths.isSome then ["filePaths"] else [])
        ++ (if node.children.isEmpty then [] else ["children"]) := by
  obtain ⟨n, c, fps, cs⟩ := node
  cases fps <;> cases cs <;>
    simp [node_to_json, json_keys, SourcemapNode.file_paths, SourcemapNode.children]

/-- C4: an ingest entry whose path contains `..` produces no filesystem
action at all (no directory creation, no write), and the rest of the batch
is processed exactly as if the entry were absent. -/
theorem C4_traversal_rejected (mkdir_ok : String → Bool)
    (pre post : List (Option String × Option String)) (p c : String)
    (h : contains_dotdot p = true) :
    process_file_entry mkdir_ok p c = []
    ∧ sync_update_actions mkdir_ok (pre ++ (some p, some c) :: post)
        = sync_update_actions mkdir_ok (pre ++ post) := by
  have hskip : process_file_entry mkdir_ok p c = [] := by
    simp [process_file_entry, h]
  refine ⟨hskip, ?_⟩
  induction pre with
  | nil => simp [sync_update_actions, hskip]
  | cons e rest ih =>
      obtain ⟨ps, cs⟩ := e
      cases ps <;> cases cs <;> simp [sync_update_actions, ih]

/-- C4 witness: a concrete batch where the middle entry has a traversal
path; it is skipped and the surrounding entries are processed unchanged. -/
theorem C4_traversal_rejected_witness :
    process_file_entry (fun _ => true) "../evil.luau" "hack" = []
    ∧ sync_update_actions (fun _ => true)
        [(some "game/ok.luau", some "x"), (some "../evil.luau", some "hack"),
          (some "game/b.luau", some "y")]
        = sync_update_actions (fun _ => true)
            [(some "game/ok.luau", some "x"), (some "game/b.luau", some "y")] :=
  C4_traversal_rejected (fun _ => true) [(some "game/ok.luau", some "x")]
    [(some "game/b.luau", some "y")] "../evil.luau" "hack" (by decide)

/-- A non-`Folder` incoming classification is never overwritten by the
init-script block. -/
theorem init_resolution_keeps_class (entries : List (String × FsNode))
    (dirPath : List String) (class_name : String) (h : class_name ≠ "Folder") :
    (init_resolution entries dirPath class_name).2 = class_name := by
  by_cases h1 : entry_exists entries "init.server.luau" <;>
    by_cases h2 : entry_exists entries "init.client.luau" <;>
      by_cases h3 : entry_exists entries "init.luau" <;>
        simp [init_resolution, h1, h2, h3, h]

/-- With no init script in the listing, the init-script block changes
nothing: no file paths and an unchanged classification. -/
theorem init_resolution_no_init (entries : List (String × FsNode))
    (dirPath : List String) (class_name : String)
    (h : has_init_script entries = false) :
    (init_resolution entries dirPath class_name).1 = none
    ∧ (init_resolution entries dirPath class_name).2 = class_name := by
  rw [has_init_script, Bool.or_eq_false_iff, Bool.or_eq_false_iff] at h
  simp [init_resolution, h.1.1, h.1.2, h.2]

/-- C5: init-script resolution checks `init.server.luau`,
`init.client.luau`, `init.luau` in strict priority order; the first match
wins and becomes the node's sole source file, the classification is
upgraded to `Script`/`LocalScript`/`ModuleScript` only when it was the
generic `Folder`, and a pre-resolved container classification is never
overwritten. -/
theorem C5_init_priority (entries : List (String × FsNode)) (readable : Bool)
    (dirPath : List String) (name class_name : String) (node : SourcemapNode)
    (h : walk_directory (FsNode.dir readable entries) dirPath name class_name
        = some node) :
    (entry_exists entries "init.server.luau" = true →
        node.file_paths = some [dirPath ++ ["init.server.luau"]]
          ∧ node.class_name = (if class_name = "Folder" then "Script" else class_name))
    ∧ (entry_exists entries "init.server.luau" = false →
        entry_exists entries "init.client.luau" = true →
        node.file_paths = some [dirPath ++ ["init.client.luau"]]
          ∧ node.class_name
              = (if class_name = "Folder" then "LocalScript" else class_name))
    ∧ (entry_exists entries "init.server.luau" = false →
        entry_exists entries "init.client.luau" = false →
        entry_exists entries "init.luau" = true →
        node.file_paths = some [dirPath ++ ["init.luau"]]
          ∧ node.class_name
              = (if class_name = "Folder" then "ModuleScript" else class_name))
    ∧ (class_name ≠ "Folder" → node.class_name = class_name) := by
  simp only [walk_directory, Option.some.injEq] at h
  subst h
  refine ⟨?_, ?_, ?_, ?_⟩
  · intro h1
    simp [init_resolution, h1, SourcemapNode.file_paths, SourcemapNode.class_name]
  · intro h1 h2
    simp [init_resolution, h1, h2, SourcemapNode.file_paths, SourcemapNode.class_name]
  · intro h1 h2 h3
    simp [init_resolution, h1, h2, h3, SourcemapNode.file_paths, SourcemapNode.class_name]
  · intro hc
    simp [SourcemapNode.class_name, init_resolution_keeps_class entries dirPath class_name hc]

/-- C5 witness: the spec's own example — `game/ServerScriptService` with an
`init.server.luau`: the container classification wins, the init path is the
sole source file. -/
theorem C5_init_priority_witness :
    entry_exists [("init.server.luau", FsNode.file)] "init.server.luau" = true
    ∧ (SourcemapNode.mk "ServerScriptService" "ServerScriptService"
          (some [["game", "ServerScriptService", "init.server.luau"]])
          []).file_paths
        = some [["game", "ServerScriptService"] ++ ["init.server.luau"]]
    ∧ (SourcemapNode.mk "ServerScriptService" "ServerScriptService"
          (some [["game", "ServerScriptService", "init.server.luau"]])
          []).class_name
        = (if "ServerScriptService" = "Folder" then "Script" else "ServerScriptService") := by
  refine ⟨by decide, ?_⟩
  exact (C5_init_priority [("init.server.luau", FsNode.file)] true
    ["game", "ServerScriptService"] "ServerScriptService" "ServerScriptService"
    (SourcemapNode.mk "ServerScriptService" "ServerScriptService"
      (some [["game", "ServerScriptService", "init.server.luau"]]) []) rfl).1 rfl

/-- C6: among the child files of a walked directory, names starting with
`init.` are skipped, other names ending in `.luau` become a leaf node with
the classification derived from the suffix (`.server.luau` → `Script`,
`.client.luau` → `LocalScript`, plain `.luau` → `ModuleScript`), the single
source path and no children, and names with any other extension produce no
node. -/
theorem C6_child_files (pre post : List (String × FsNode)) (file_name : String)
    (dirPath : List String) (name : String) :
    (starts_with file_name "init." = true →
        walk_entries (pre ++ (file_name, FsNode.file) :: post) dirPath name
          = walk_entries (pre ++ post) dirPath name)
    ∧ (starts_with file_name "init." = false → ends_with file_name ".luau" = true →
        walk_entries (pre ++ (file_name, FsNode.file) :: post) dirPath name
          = walk_entries pre dirPath name
            ++ SourcemapNode.mk (parse_script_name file_name).1
                (parse_script_name file_name).2 (some [dirPath ++ [file_name]]) []
              :: walk_entries post dirPath name)
    ∧ (ends_with file_name ".luau" = false →
        walk_entries (pre ++ (file_name, FsNode.file) :: post) dirPath name
          = walk_entries (pre ++ post) dirPath name)
    ∧ (ends_with file_name ".server.luau" = true →
        (parse_script_name file_name).2 = "Script")
    ∧ (ends_with file_name ".server.luau" = false →
        ends_with file_name ".client.luau" = true →
        (parse_script_name file_name).2 = "LocalScript")
    ∧ (ends_with file_name ".server.luau" = false →
        ends_with file_name ".client.luau" = false →
        ends_with file_name ".luau" = true →
        (parse_script_name file_name).2 = "ModuleScript") := by
  refine ⟨?_, ?_, ?_, ?_, ?_, ?_⟩
  · intro hs
    simp [walk_entries_flat, List.flatMap_append, List.flatMap_cons, entry_child, hs]
  · intro hs he
    simp [walk_entries_flat, List.flatMap_append, List.flatMap_cons, entry_child, hs, he]
  · intro he
    by_cases hs : starts_with file_name "init." <;>
      simp [walk_entries_flat, List.flatMap_append, List.flatMap_cons, entry_child, hs, he]
  · intro h1
    simp [parse_script_name, strip_suffix, h1]
  · intro h1 h2
    simp [parse_script_name, strip_suffix, h1, h2]
  · intro h1 h2 h3
    simp [parse_script_name, strip_suffix, h1, h2, h3]

/-- C6 witness: the spec's own example — `Utils.luau` inside
`game/ReplicatedStorage` becomes a `ModuleScript` leaf named `Utils` with
the single source path and no children. -/
theorem C6_child_files_witness :
    walk_entries [("Utils.luau", FsNode.file)] ["game", "ReplicatedStorage"]
        "ReplicatedStorage"
      = [SourcemapNode.mk "Utils" "ModuleScript"
          (some [["game", "ReplicatedStorage", "Utils.luau"]]) []] := by
  have h := (C6_child_files [] [] "Utils.luau" ["game", "ReplicatedStorage"]
    "ReplicatedStorage").2.1 (by decide) (by decide)
  simpa [walk_entries] using h

/-- C7: a child directory of a walked directory always yields exactly one
child node; when the parent is named `StarterPlayer` and the child directory
is named `StarterPlayerScripts` or `StarterCharacterScripts`, that node is
classified with the matching specialized tag (and no init script can
overwrite it); for any other parent name — or any other child name — no
special classification happens and the node stays a generic `Folder` (when
no init script upgrades it). -/
theorem C7_starter_player_override (pre post : List (String × FsNode))
    (child_name : String) (r : Bool) (sub : List (String × FsNode))
    (dirPath : List String) (parent_name : String) :
    ∃ child_node,
      walk_entries (pre ++ (child_name, FsNode.dir r sub) :: post) dirPath parent_name
        = walk_entries pre dirPath parent_name
          ++ child_node :: walk_entries post dirPath parent_name
      ∧ (parent_name = "StarterPlayer" → child_name = "StarterPlayerScripts" →
          child_node.class_name = "StarterPlayerScripts")
      ∧ (parent_name = "StarterPlayer" → child_name = "StarterCharacterScripts" →
          child_node.class_name = "StarterCharacterScripts")
      ∧ (parent_name ≠ "StarterPlayer" → has_init_script sub = false →
          child_node.class_name = "Folder")
      ∧ (child_name ≠ "StarterPlayerScripts" → child_name ≠ "StarterCharacterScripts" →
          has_init_script sub = false →
          child_node.class_name = "Folder") := by
  refine ⟨SourcemapNode.mk child_name
    (init_resolution sub (dirPath ++ [child_name])
      (if parent_name = "StarterPlayer" ∧ child_name = "StarterPlayerScripts" then
        "StarterPlayerScripts"
      else if parent_name = "StarterPlayer" ∧ child_name = "StarterCharacterScripts" then
        "StarterCharacterScripts"
      else
        "Folder")).2
    (init_resolution sub (dirPath ++ [child_name])
      (if parent_name = "StarterPlayer" ∧ child_name = "StarterPlayerScripts" then
        "StarterPlayerScripts"
      else if parent_name = "StarterPlayer" ∧ child_name = "StarterCharacterScripts" then
        "StarterCharacterScripts"
      else
        "Folder")).1
    (if r then walk_entries sub (dirPath ++ [child_name]) child_name else []),
    ?_, ?_, ?_, ?_, ?_⟩
  · simp [walk_entries_flat, List.flatMap_append, List.flatMap_cons, entry_child,
      walk_directory]
  · intro hp hc
    subst hp; subst hc
    simp [SourcemapNode.class_name,
      init_resolution_keeps_class sub _ "StarterPlayerScripts" (by decide)]
  · intro hp hc
    subst hp; subst hc
    simp [SourcemapNode.class_name,
      init_resolution_keeps_class sub _ "StarterCharacterScripts" (by decide)]
  · intro hp hno
    simp [SourcemapNode.class_name, hp, (init_resolution_no_init sub _ _ hno).2]
  · intro h1 h2 hno
    simp [SourcemapNode.class_name, h1, h2, (init_resolution_no_init sub _ _ hno).2]

/-- C7 witness: the spec's own example — `game/StarterPlayer/StarterPlayerScripts/`
yields a child classified exactly `StarterPlayerScripts`, and a directory of
the same name under a differently named parent stays a `Folder`. -/
theorem C7_starter_player_override_witness :
    (∃ child_node,
      walk_entries [("StarterPlayerScripts", FsNode.dir true [])]
          ["game", "StarterPlayer"] "StarterPlayer"
        = [child_node]
      ∧ child_node.class_name = "StarterPlayerScripts")
    ∧ (∃ child_node,
      walk_entries [("StarterPlayerScripts", FsNode.dir true [])]
          ["game", "Other"] "Other"
        = [child_node]
      ∧ child_node.class_name = "Folder") := by
  constructor
  · obtain ⟨n, heq, h1, -, -, -⟩ := C7_starter_player_override [] []
      "StarterPlayerScripts" true [] ["game", "StarterPlayer"] "StarterPlayer"
    exact ⟨n, by simpa [walk_entries] using heq, h1 rfl rfl⟩
  · obtain ⟨n, heq, -, -, h4, -⟩ := C7_starter_player_override [] []
      "StarterPlayerScripts" true [] ["game", "Other"] "Other"
    exact ⟨n, by simpa [walk_entries] using heq, h4 (by decide) (by decide)⟩

/-- C8: the builder never fails — it always yields a root named `Project`;
when no `game` subdirectory exists under the root the root node has no
children; a directory on which `read_dir` fails yields a node with an empty
subtree rather than an error, and an unreadable `game` directory yields a
childless root. -/
theorem C8_best_effort :
    (∀ (root : FsNode) (root_path : List String),
        (generate_sourcemap root root_path).name = "Project")
    ∧ (∀ (r : Bool) (entries : List (String × FsNode)) (root_path : List String),
        (∀ (rb : Bool) (g : List (String × FsNode)),
            entry_lookup entries "game" ≠ some (FsNode.dir rb g)) →
        generate_sourcemap (FsNode.dir r entries) root_path
          = SourcemapNode.mk "Project" "DataModel" none [])
    ∧ (∀ (entries : List (String × FsNode)) (dirPath : List String)
          (name class_name : String),
        ∃ node,
          walk_directory (FsNode.dir false entries) dirPath name class_name = some node
          ∧ node.children = [])
    ∧ (∀ (r : Bool) (entries gentries : List (String × FsNode)) (root_path : List String),
        entry_lookup entries "game" = some (FsNode.dir false gentries) →
        generate_sourcemap (FsNode.dir r entries) root_path
          = SourcemapNode.mk "Project" "DataModel" none []) := by
  refine ⟨?_, ?_, ?_, ?_⟩
  · intro root root_path
    cases root with
    | file => rfl
    | dir r entries =>
        cases h : entry_lookup entries "game" with
        | none => simp [generate_sourcemap, h, SourcemapNode.name]
        | some e => cases e <;> simp [generate_sourcemap, h, SourcemapNode.name]
  · intro r entries root_path h
    cases hl : entry_lookup entries "game" with
    | none => simp [generate_sourcemap, hl]
    | some e =>
        cases e with
        | file => simp [generate_sourcemap, hl]
        | dir rb g => exact absurd hl (h rb g)
  · intro entries dirPath name class_name
    exact ⟨_, rfl, rfl⟩
  · intro r entries gentries root_path h
    simp [generate_sourcemap, h]

/-- C8 witness: with `game` present only as a file the root has no children;
with an unreadable `game` directory the root has no children; a walk of an
unreadable directory returns a node with an empty subtree. -/
theorem C8_best_effort_witness :
    generate_sourcemap (FsNode.dir true [("game", FsNode.file)]) []
      = SourcemapNode.mk "Project" "DataModel" none []
    ∧ generate_sourcemap
        (FsNode.dir true [("game", FsNode.dir false [("A", FsNode.dir true [])])]) []
      = SourcemapNode.mk "Project" "DataModel" none []
    ∧ ∃ node,
        walk_directory (FsNode.dir false [("A", FsNode.dir true [])]) [] "X" "Folder"
          = some node
        ∧ node.children = [] := by
  refine ⟨C8_best_effort.2.1 true [("game", FsNode.file)] [] ?_,
    C8_best_effort.2.2.2 true [("game", FsNode.dir false [("A", FsNode.dir true [])])]
      [("A", FsNode.dir true [])] [] ?_,
    C8_best_effort.2.2.1 [("A", FsNode.dir true [])] [] "X" "Folder"⟩
  · intro rb g hl
    simp [entry_lookup] at hl
  · rfl

/-- Size-bounded mutual induction: every node produced by `walk_directory`,
and every child produced by `walk_entries`, satisfies `SingleSource`. -/
theorem single_source_aux (k : Nat) :
    (∀ fs : FsNode, sizeOf fs ≤ k →
      ∀ (dirPath : List String) (name class_name : String) (node : SourcemapNode),
        walk_directory fs dirPath name class_name = some node → SingleSource node)
    ∧ (∀ entries : List (String × FsNode), sizeOf entries ≤ k →
      ∀ (dirPath : List String) (name : String),
        ∀ c ∈ walk_entries entries dirPath name, SingleSource c) := by
  induction k with
  | zero =>
      constructor
      · intro fs hle
        exfalso
        cases fs <;> simp at hle
      · intro entries hle
        exfalso
        cases entries <;> simp at hle
  | succ n ih =>
      constructor
      · intro fs hle dirPath name class_name node h
        match fs, hle with
        | FsNode.file, _ => simp [walk_directory] at h
        | FsNode.dir r entries, hle =>
            simp only [walk_directory, Option.some.injEq] at h
            subst h
            refine SingleSource.mk _ _ _ _ ?_ ?_
            · by_cases h1 : entry_exists entries "init.server.luau" <;>
                by_cases h2 : entry_exists entries "init.client.luau" <;>
                  by_cases h3 : entry_exists entries "init.luau" <;>
                    simp [init_resolution, h1, h2, h3]
            · intro c hc
              by_cases hr : r
              · simp only [hr, if_true] at hc
                have hsz : sizeOf entries ≤ n := by
                  simp at hle
                  omega
                exact ih.2 entries hsz dirPath name c hc
              · simp [hr] at hc
      · intro entries hle dirPath name c hc
        rw [walk_entries_flat] at hc
        obtain ⟨e, he, hce⟩ := List.mem_flatMap.1 hc
        have hsze : sizeOf e < sizeOf entries := List.sizeOf_lt_of_mem he
        obtain ⟨fn, ch⟩ := e
        match ch, hsze with
        | FsNode.file, _ =>
            by_cases hs : starts_with fn "init."
            · simp [entry_child, hs] at hce
            · by_cases hl : ends_with fn ".luau"
              · simp [entry_child, hs, hl] at hce
                subst hce
                refine SingleSource.mk _ _ _ _ (Or.inr ⟨_, rfl⟩) ?_
                intro c hc
                simp at hc
              · simp [entry_child, hs, hl] at hce
        | FsNode.dir rb es, hsze =>
            simp only [entry_child, walk_directory, List.mem_singleton] at hce
            subst hce
            have hsz : sizeOf (FsNode.dir rb es) ≤ n := by
              simp at hsze
              simp
              omega
            exact ih.1 (FsNode.dir rb es) hsz (dirPath ++ [fn]) fn _ _ rfl

/-- C10: every node of every tree the builder produces has either no
`file_paths` at all or exactly one path in it — the multi-file shape the
data model reserves is never produced. -/
theorem C10_single_source (root : FsNode) (root_path : List String) :
    SingleSource (generate_sourcemap root root_path) := by
  have htop : ∀ (gentries : List (String × FsNode)) (game_path : List String),
      ∀ c ∈ top_level_children gentries game_path, SingleSource c := by
    intro gentries game_path c hc
    rw [top_level_children_flat] at hc
    obtain ⟨e, he, hce⟩ := List.mem_flatMap.1 hc
    obtain ⟨fn, ch⟩ := e
    match ch with
    | FsNode.file => simp [top_child] at hce
    | FsNode.dir rb es =>
        simp only [top_child, walk_directory, List.mem_singleton] at hce
        subst hce
        exact (single_source_aux (sizeOf (FsNode.dir rb es))).1 _ le_rfl
          (game_path ++ [fn]) fn _ _ rfl
  cases root with
  | file =>
      refine SingleSource.mk _ _ _ _ (Or.inl rfl) ?_
      intro c hc
      simp [generate_sourcemap] at hc
  | dir r entries =>
      cases hl : entry_lookup entries "game" with
      | none =>
          simp only [generate_sourcemap, hl]
          refine SingleSource.mk _ _ _ _ (Or.inl rfl) ?_
          intro c hc
          simp at hc
      | some e =>
          cases e with
          | file =>
              simp only [generate_sourcemap, hl]
              refine SingleSource.mk _ _ _ _ (Or.inl rfl) ?_
              intro c hc
              simp at hc
          | dir rb g =>
              simp only [generate_sourcemap, hl]
              refine SingleSource.mk _ _ _ _ (Or.inl rfl) ?_
              intro c hc
              by_cases hrb : rb
              · simp only [hrb, if_true] at hc
                exact htop g _ c hc
              · simp [hrb] at hc
